import Mathlib

/-!
Verification of the bridge metaprotocol processor of the asteroid-protocol
indexer.  The embedding follows the `Bridge.Process` function found in
`src/unnamed/part_000` (the current revision of
`indexer/src/indexer/metaprotocol/bridge.go`; the files
`src/indexer/src/indexer/metaprotocol/bridge.go` and `src/unnamed/part_001`
are earlier revisions of the same processor).  Database rows are modelled as
records, the gorm database handle as lists of rows, and a run of `Process`
as either an error (in which case the surrounding transaction rolls back and
no row is written) or an ordered list of row writes applied atomically.
Go `uint64` amounts are modelled as `Nat` (every subtraction performed by the
code is guarded, so no wrap-around occurs).  The `strconv.ParseFloat` call is
modelled with full `float64` semantics: the complete Go grammar (special
forms, decimal and hexadecimal literals, underscores, exponents) and exact
round-to-nearest-even into IEEE binary64, whose finite values are carried as
exact rationals; literals that overflow to an infinity make `ParseFloat`
return `ErrRange` and hence take the parse-error branch of the code.
-/

namespace AsteroidBridge

set_option maxRecDepth 20000

/-- Row of the `token` table (the fields the bridge processor reads). -/
structure Token where
  id : Nat
  chainId : String
  ticker : String
deriving DecidableEq, Repr, Inhabited

/-- Row of the `token_holder` table. -/
structure TokenHolder where
  id : Nat
  chainId : String
  tokenId : Nat
  address : String
  amount : Nat
deriving DecidableEq, Repr, Inhabited

/-- Row of the `bridge_remote_chain` table. -/
structure BridgeRemoteChain where
  id : Nat
  chainId : String
  remoteChainId : String
  remoteContract : String
deriving DecidableEq, Repr, Inhabited

/-- Row of the `bridge_token` table; `remoteChainId` refers to
`BridgeRemoteChain.id`. -/
structure BridgeToken where
  id : Nat
  remoteChainId : Nat
  tokenId : Nat
  enabled : Bool
deriving DecidableEq, Repr, Inhabited

/-- Row of the `token_address_history` table. -/
structure TokenAddressHistory where
  chainId : String
  height : Nat
  transactionId : Nat
  tokenId : Nat
  sender : String
  receiver : String
  action : String
  amount : Nat
  dateCreated : Nat
deriving DecidableEq, Repr, Inhabited

/-- Row of the `bridge_history` table. -/
structure BridgeHistory where
  chainId : String
  height : Nat
  transactionId : Nat
  tokenId : Nat
  sender : String
  action : String
  amount : Nat
  remoteChainId : String
  remoteContract : String
  receiver : String
  signature : String
  dateCreated : Nat
deriving DecidableEq, Repr, Inhabited

/-- The `models.Transaction` fields the bridge processor reads. -/
structure Transaction where
  id : Nat
  height : Nat
  hash : String
  dateCreated : Nat
deriving DecidableEq, Repr, Inhabited

/-- The parsed protocol URN (`ParseProtocolString` output): chain id,
operation name and the key/value pairs.  Indexing a Go map returns the zero
value `""` for an absent key, see `kvGet`. -/
structure ParsedURN where
  chainID : String
  operation : String
  keyValuePairs : List (String × String)
deriving DecidableEq, Repr, Inhabited

/-- The database state visible to the bridge processor. -/
structure DB where
  tokens : List Token
  holders : List TokenHolder
  remoteChains : List BridgeRemoteChain
  bridgeTokens : List BridgeToken
  tokenAddressHistory : List TokenAddressHistory
  bridgeHistory : List BridgeHistory
deriving DecidableEq, Repr, Inhabited

/-- The `Bridge` processor struct: configured chain id and Ed25519 keypair
(key material kept abstract as strings; the signing function itself is a
parameter of `Bridge.Process`). -/
structure Bridge where
  chainID : String
  privKey : String
  pubKey : String
deriving DecidableEq, Repr, Inhabited

/-- Go `strings.TrimSpace` (ASCII whitespace fragment). -/
def trimSpace (s : String) : String :=
  String.mk (((s.data.dropWhile Char.isWhitespace).reverse.dropWhile
    Char.isWhitespace).reverse)

/-- Go `strings.ToUpper` (ASCII fragment). -/
def toUpperStr (s : String) : String :=
  String.mk (s.data.map Char.toUpper)

/-- Go map indexing `parsedURN.KeyValuePairs[k]`: the mapped value, or the
zero value `""` when the key is absent. -/
def kvGet (urn : ParsedURN) (k : String) : String :=
  (urn.keyValuePairs.lookup k).getD ""

/-- A Go `float64` value as produced by `strconv.ParseFloat`: a finite value
(every finite binary64 value is an exact rational, carried here exactly), an
infinity, or NaN. -/
inductive GoFloat where
  | finite : ℚ → GoFloat
  | posInf : GoFloat
  | negInf : GoFloat
  | nan : GoFloat
deriving DecidableEq, Repr

/-- Go `lower` on an ASCII character, used by strconv for case-insensitive
letters. -/
def lowerChar (c : Char) : Char :=
  if 'A' ≤ c ∧ c ≤ 'Z' then Char.ofNat (c.toNat + 32) else c

/-- Hexadecimal digit test (case-insensitive). -/
def isHexDigitChar (c : Char) : Bool :=
  c.isDigit || ('a' ≤ lowerChar c && lowerChar c ≤ 'f')

/-- Value of one hexadecimal digit. -/
def hexDigitVal (c : Char) : Nat :=
  if c.isDigit then c.toNat - 48 else (lowerChar c).toNat - 87

/-- Value of a list of decimal digit characters. -/
def digitsVal (l : List Char) : Nat :=
  l.foldl (fun a c => 10 * a + (c.toNat - 48)) 0

/-- Value of a list of hexadecimal digit characters. -/
def digitsValHex (l : List Char) : Nat :=
  l.foldl (fun a c => 16 * a + hexDigitVal c) 0

/-- Number of binary digits of a natural number (fuel-driven, the number
itself is enough fuel). -/
def bitlenGo : Nat → Nat → Nat
  | 0, _ => 0
  | f+1, n => if n = 0 then 0 else bitlenGo f (n / 2) + 1

/-- Number of binary digits of a natural number. -/
def bitlen (n : Nat) : Nat := bitlenGo n n

/-- Number of decimal digits of a natural number (fuel-driven). -/
def decDigitsGo : Nat → Nat → Nat
  | 0, _ => 0
  | f+1, n => if n = 0 then 0 else decDigitsGo f (n / 10) + 1

/-- Number of decimal digits of a natural number. -/
def decDigitCount (n : Nat) : Nat := decDigitsGo n n

/-- Floor of the base-2 logarithm of the positive rational `a / b`. -/
def qLog2Floor (a b : Nat) : Int :=
  let e : Int := (bitlen a : Int) - (bitlen b : Int)
  if e ≥ 0 then
    if b * 2 ^ e.toNat ≤ a then e else e - 1
  else
    if b ≤ a * 2 ^ (-e).toNat then e else e - 1

/-- Round the positive rational `a / b` to the nearest IEEE binary64 value
(53-bit mantissa, exponent down to 2^(-1074), ties to even), returned as an
exact rational; `none` on overflow beyond the largest finite binary64, where
IEEE rounding yields an infinity. -/
def roundToFloat64 (a b : Nat) : Option ℚ :=
  let e := qLog2Floor a b
  let ebits : Int := max (e - 52) (-1074)
  let N := if ebits ≥ 0 then a else a * 2 ^ (-ebits).toNat
  let D := if ebits ≥ 0 then b * 2 ^ ebits.toNat else b
  let m0 := N / D
  let r := N % D
  let m := if D < 2 * r then m0 + 1 else if 2 * r < D then m0 else m0 + m0 % 2
  if ebits ≥ 0 then
    if Nat.pow 2 1024 ≤ m * 2 ^ ebits.toNat then none
    else some (mkRat (Int.ofNat (m * 2 ^ ebits.toNat)) 1)
  else some (mkRat (Int.ofNat m) (2 ^ (-ebits).toNat))

/-- Binary64 value of the decimal literal `n * 10^e`; `none` on overflow
(which makes `ParseFloat` report `ErrRange`).  The magnitude clamps are
mathematically exact shortcuts: above 10^310 every value rounds to an
infinity, below 10^(-339) every value rounds to zero (half the smallest
subnormal is about 2.47e-324). -/
def decValToFloat (n : Nat) (e : Int) : Option ℚ :=
  if n = 0 then some 0
  else
    let mag : Int := (decDigitCount n : Int) + e
    if mag > 310 then none
    else if mag < -339 then some 0
    else if e ≥ 0 then roundToFloat64 (n * 10 ^ e.toNat) 1
    else roundToFloat64 n (10 ^ (-e).toNat)

/-- Binary64 value of the hexadecimal literal `n * 2^e`; same conventions as
`decValToFloat`. -/
def hexValToFloat (n : Nat) (e : Int) : Option ℚ :=
  if n = 0 then some 0
  else
    let mag : Int := (bitlen n : Int) + e
    if mag > 1030 then none
    else if mag < -1080 then some 0
    else if e ≥ 0 then roundToFloat64 (n * 2 ^ e.toNat) 1
    else roundToFloat64 n (2 ^ (-e).toNat)

/-- The special forms accepted by `strconv.ParseFloat`: `inf` and `infinity`
with an optional sign, and `nan` without one, all case-insensitive, taking
the whole string. -/
def parseSpecial (l : List Char) : Option GoFloat :=
  let lw := l.map lowerChar
  if lw = "nan".data then some GoFloat.nan
  else
    let (neg, rest) :=
      match lw with
      | '-' :: r => (true, r)
      | '+' :: r => (false, r)
      | r => (false, r)
    if rest = "inf".data ∨ rest = "infinity".data then
      some (if neg then GoFloat.negInf else GoFloat.posInf)
    else none

/-- State of the strconv `underscoreOK` scan: beginning of the number, a
digit (or base prefix), an underscore, or any other character. -/
inductive USaw where
  | start
  | dig
  | und
  | other
deriving DecidableEq

/-- Scan loop of strconv `underscoreOK`: every underscore must follow a
digit (or the base prefix) and be followed by a digit. -/
def underscoreLoop (hex : Bool) : List Char → USaw → Bool
  | [], saw => if saw = USaw.und then false else true
  | c :: r, saw =>
    if c.isDigit ∨ (hex ∧ ('a' ≤ lowerChar c ∧ lowerChar c ≤ 'f')) then
      underscoreLoop hex r USaw.dig
    else if c = '_' then
      (if saw = USaw.dig then underscoreLoop hex r USaw.und else false)
    else if saw = USaw.und then false
    else underscoreLoop hex r USaw.other

/-- strconv `underscoreOK`: skip an optional sign and base prefix, then
validate underscore placement. -/
def underscoreOKGo (l0 : List Char) : Bool :=
  let l1 :=
    match l0 with
    | '+' :: r => r
    | '-' :: r => r
    | r => r
  match l1 with
  | '0' :: c :: r =>
    if lowerChar c = 'x' then underscoreLoop true r USaw.dig
    else if lowerChar c = 'b' ∨ lowerChar c = 'o' then
      underscoreLoop false r USaw.dig
    else underscoreLoop false l1 USaw.start
  | _ => underscoreLoop false l1 USaw.start

/-- Mantissa scan of strconv `readFloat`: the integer-part run of digits and
underscores, at most one decimal point, the fraction-part run, and the
remaining characters (a second decimal point stops the scan, leaving the
rest unconsumed, which fails the full-consumption check downstream). -/
def parseMantissa (hex : Bool) (l : List Char) :
    List Char × List Char × List Char :=
  let isM : Char → Bool := fun c =>
    (if hex then isHexDigitChar c else c.isDigit) || c == '_'
  let ip := l.takeWhile isM
  match l.dropWhile isM with
  | '.' :: r2 => (ip, r2.takeWhile isM, r2.dropWhile isM)
  | r1 => (ip, [], r1)

/-- Exponent part of strconv `readFloat`: either the input is exhausted (no
exponent), or the exponent character followed by an optional sign and a run
of digits and underscores starting with a digit, consuming the whole rest of
the string.  `none` means the string is not a valid float literal. -/
def parseExpPart (expChar : Char) (l : List Char) : Option (Option Int) :=
  match l with
  | [] => some none
  | c :: r =>
    if lowerChar c = expChar then
      let (esign, r2) :=
        match r with
        | '+' :: t => ((1 : Int), t)
        | '-' :: t => ((-1 : Int), t)
        | t => ((1 : Int), t)
      match r2 with
      | [] => none
      | d :: _ =>
        if d.isDigit then
          let digs := r2.takeWhile (fun c2 => c2.isDigit || c2 == '_')
          let rest := r2.dropWhile (fun c2 => c2.isDigit || c2 == '_')
          if rest = [] then
            some (some (esign *
              (digitsVal (digs.filter (fun c2 => c2 ≠ '_')) : Int)))
          else none
        else none
    else none

/-- Model of Go `strconv.ParseFloat(s, 64)` restricted to its success cases:
`none` exactly when the call returns a non-nil error — a syntax error on a
malformed string, or `ErrRange` when a literal overflows to an infinity
(underflow to zero returns nil error in Go and hence `finite 0` here).
Accepts the special forms, decimal literals (optional sign, digits, at most
one decimal point, optional `e` exponent) and hexadecimal literals (`0x`,
mandatory `p` exponent), with underscores validated as in strconv, and
rounds the exact literal value to the nearest binary64 (ties to even). -/
def parseGoFloat (s : String) : Option GoFloat :=
  match parseSpecial s.data with
  | some f => some f
  | none =>
    let l0 := s.data
    let (neg, l1) :=
      match l0 with
      | '-' :: r => (true, r)
      | '+' :: r => (false, r)
      | r => (false, r)
    let (hex, l2) :=
      match l1 with
      | '0' :: c :: r =>
        if lowerChar c = 'x' ∧ r ≠ [] then (true, r) else (false, l1)
      | _ => (false, l1)
    let (ip, fp, rest) := parseMantissa hex l2
    let ipd := ip.filter (fun c => c ≠ '_')
    let fpd := fp.filter (fun c => c ≠ '_')
    if ipd = [] ∧ fpd = [] then none
    else
      match parseExpPart (if hex then 'p' else 'e') rest with
      | none => none
      | some oe =>
        if hex ∧ oe = none then none
        else if l0.contains '_' && !underscoreOKGo l0 then none
        else
          let e := oe.getD 0
          let vf :=
            if hex then
              hexValToFloat (digitsValHex (ipd ++ fpd))
                (e - 4 * (fpd.length : Int))
            else
              decValToFloat (digitsVal (ipd ++ fpd)) (e - (fpd.length : Int))
          match vf with
          | none => none
          | some q => some (GoFloat.finite (if neg then -q else q))

/-- The Go comparison `amount <= 0`: false for NaN (all comparisons with NaN
are false) and for positive infinity. -/
def GoFloat.le0 : GoFloat → Bool
  | .finite q => decide (q ≤ 0)
  | .posInf => false
  | .negInf => true
  | .nan => false

/-- The Go conversion `uint64(x)`: the fraction is discarded (truncation
toward zero) whenever the result is representable, i.e. for 0 ≤ x < 2^64.
Outside that range, and for NaN and the infinities, the Go specification
leaves the result implementation-dependent; the model uses 2^63 there (the
amd64 result). -/
def GoFloat.toUint64 : GoFloat → Nat
  | .finite q =>
      if 0 ≤ q.num ∧ q.num < 18446744073709551616 * (q.den : Int) then
        q.num.toNat / q.den
      else 9223372036854775808
  | _ => 9223372036854775808

/-- `uint64(math.Round(x))`: `math.Round` rounds half away from zero, which
for 0 ≤ x is ⌊x + 1/2⌋, computed on the exact rational as
`(2 num + den) / (2 den)` in integer division; converted to `uint64` with
the same implementation-dependent caveat outside the representable range. -/
def GoFloat.roundUint64 : GoFloat → Nat
  | .finite q =>
      let r := (2 * q.num.toNat + q.den) / (2 * q.den)
      if 0 ≤ q.num ∧ r < 18446744073709551616 then r
      else 9223372036854775808
  | _ => 9223372036854775808

/-- The standard base64 alphabet (RFC 4648), as used by
`encoding/base64.StdEncoding`. -/
def base64Chars : List Char :=
  "ABCDEFGHIJKLMNOPQRSTUVWXYZabcdefghijklmnopqrstuvwxyz0123456789+/".data

/-- Character of the base64 alphabet at a 6-bit index. -/
def b64c (n : Nat) : Char := base64Chars.getD n 'A'

/-- `encoding/base64.StdEncoding.EncodeToString` over a byte list (bytes as
naturals below 256), including `=` padding. -/
def base64Encode : List Nat → String
  | [] => ""
  | [a] => String.mk [b64c (a / 4), b64c (a % 4 * 16), '=', '=']
  | [a, b] =>
      String.mk [b64c (a / 4), b64c (a % 4 * 16 + b / 16), b64c (b % 16 * 4),
        '=']
  | a :: b :: c :: rest =>
      String.mk [b64c (a / 4), b64c (a % 4 * 16 + b / 16),
        b64c (b % 16 * 4 + c / 64), b64c (c % 64)] ++ base64Encode rest

/-- `db.Where("chain_id = ? AND ticker = ?", …).First(&tokenModel)`. -/
def findToken (db : DB) (chainId ticker : String) : Option Token :=
  db.tokens.find? (fun t => t.chainId == chainId && t.ticker == ticker)

/-- `db.Where("chain_id = ? AND remote_chain_id = ?", …).First(…)`. -/
def findRemoteChain (db : DB) (chainId remoteChainId : String) :
    Option BridgeRemoteChain :=
  db.remoteChains.find?
    (fun r => r.chainId == chainId && r.remoteChainId == remoteChainId)

/-- `db.Where("remote_chain_id = ? AND token_id = ?", …).First(…)`. -/
def findBridgeToken (db : DB) (remoteChainId tokenId : Nat) :
    Option BridgeToken :=
  db.bridgeTokens.find?
    (fun b => b.remoteChainId == remoteChainId && b.tokenId == tokenId)

/-- `db.Where("chain_id = ? AND token_id = ? AND address = ?", …).First(…)`. -/
def findHolder (db : DB) (chainId : String) (tokenId : Nat)
    (address : String) : Option TokenHolder :=
  db.holders.find? (fun h =>
    h.chainId == chainId && h.tokenId == tokenId && h.address == address)

/-- A single gorm `Save` call performed by the processor, in execution
order. -/
inductive Write where
  | saveHolder : TokenHolder → Write
  | saveTokenAddressHistory : TokenAddressHistory → Write
  | saveBridgeHistory : BridgeHistory → Write
deriving DecidableEq, Repr

/-- Effect of one `Save` on the database: saving a fetched holder row
updates it in place by primary key; saving a fresh history row appends
it. -/
def applyWrite (db : DB) : Write → DB
  | .saveHolder h =>
      { db with holders := db.holders.map (fun x => if x.id == h.id then h else x) }
  | .saveTokenAddressHistory r =>
      { db with tokenAddressHistory := db.tokenAddressHistory ++ [r] }
  | .saveBridgeHistory r =>
      { db with bridgeHistory := db.bridgeHistory ++ [r] }

/-- The `token_address_history` row built by the send branch
(`historyModel` in the source). -/
def mkTokenAddressHistory (tx : Transaction) (chainId : String)
    (tokenId : Nat) (sender : String) (amount : Nat) : TokenAddressHistory :=
  { chainId := chainId, height := tx.height, transactionId := tx.id,
    tokenId := tokenId, sender := sender, receiver := "bridge",
    action := "bridge", amount := amount, dateCreated := tx.dateCreated }

/-- The attestation message: plain concatenation, no separators
(`parsedURN.ChainID + transactionModel.Hash + tokenModel.Ticker +
amountString + remoteChainId + remoteContract + receiverAddress`). -/
def attestationMsg (chainId hash ticker amountString rch rco dst : String) :
    String :=
  chainId ++ hash ++ ticker ++ amountString ++ rch ++ rco ++ dst

/-- The `bridge_history` row built by the send branch (`bridgeHistory` in
the source). -/
def mkBridgeHistory (tx : Transaction) (chainId : String) (tokenId : Nat)
    (sender : String) (amount : Nat) (rch rco dst sig : String) :
    BridgeHistory :=
  { chainId := chainId, height := tx.height, transactionId := tx.id,
    tokenId := tokenId, sender := sender, action := "send", amount := amount,
    remoteChainId := rch, remoteContract := rco, receiver := dst,
    signature := sig, dateCreated := tx.dateCreated }

/-- `Bridge.Process` from `src/unnamed/part_000` (lines 487-610).  The
Ed25519 signing primitive `ed25519.Sign` is passed in as the deterministic
function `sign : privKey → message → signature bytes` (the Ed25519 signing
in Go is deterministic per RFC 8032).  The result is either the error
returned by the Go function, or the ordered list of database writes it
performed.  Branches in which a `db.Save` itself fails (infrastructure
failure) are outside the model. -/
def Bridge.Process (sign : String → String → List Nat) (protocol : Bridge)
    (db : DB) (transactionModel : Transaction) (parsedURN : ParsedURN)
    (sender : String) : Except String (List Write) :=
  if parsedURN.chainID ≠ protocol.chainID then
    .error "chain ID in protocol string does not match transaction chain ID"
  else if parsedURN.operation = "send" then
    let ticker := toUpperStr (trimSpace (kvGet parsedURN "tic"))
    match findToken db parsedURN.chainID ticker with
    | none => .error "token with this ticker does not exist"
    | some tokenModel =>
      let remoteChainId := trimSpace (kvGet parsedURN "rch")
      match findRemoteChain db parsedURN.chainID remoteChainId with
      | none => .error "remote chain does not exist"
      | some remoteChainModel =>
        let remoteContract := trimSpace (kvGet parsedURN "rco")
        if remoteChainModel.remoteContract ≠ remoteContract then
          .error "incorrect remote contract for chain"
        else
          match findBridgeToken db remoteChainModel.id tokenModel.id with
          | none => .error "token not enabled for bridging"
          | some bridgeTokenModel =>
            if !bridgeTokenModel.enabled then
              .error "token not enabled for bridging"
            else
              let receiverAddress := trimSpace (kvGet parsedURN "dst")
              let amountString := trimSpace (kvGet parsedURN "amt")
              match parseGoFloat amountString with
              | none => .error "unable to parse amount"
              | some amount =>
                if amount.le0 then .error "amount must be greater than 0"
                else
                  match findHolder db parsedURN.chainID tokenModel.id sender with
                  | none => .error "sender does not have any tokens to sell"
                  | some holderModel =>
                    if holderModel.amount < amount.toUint64 then
                      .error "sender does not have enough tokens to sell"
                    else
                      .ok [Write.saveHolder
                            { holderModel with
                              amount := holderModel.amount - amount.toUint64 },
                          Write.saveTokenAddressHistory
                            (mkTokenAddressHistory transactionModel
                              parsedURN.chainID tokenModel.id sender
                              amount.roundUint64),
                          Write.saveBridgeHistory
                            (mkBridgeHistory transactionModel parsedURN.chainID
                              tokenModel.id sender amount.roundUint64
                              remoteChainId remoteContract receiverAddress
                              (base64Encode (sign protocol.privKey
                                (attestationMsg parsedURN.chainID
                                  transactionModel.hash tokenModel.ticker
                                  amountString remoteChainId remoteContract
                                  receiverAddress))))]
  else
    .ok []

/-- Running the processor inside the per-transaction database transaction of
the indexer loop (spec section 4.7, modelled from the spec: the indexer loop
is not part of the sources under study): on success all writes are applied
in order; on error the transaction rolls back and the database is
unchanged. -/
def runProcess (sign : String → String → List Nat) (protocol : Bridge)
    (db : DB) (tx : Transaction) (urn : ParsedURN) (sender : String) : DB :=
  match Bridge.Process sign protocol db tx urn sender with
  | .ok ws => ws.foldl applyWrite db
  | .error _ => db

/-- The `token_address_history` rows appended by a trace. -/
def tahRows (ws : List Write) : List TokenAddressHistory :=
  ws.filterMap (fun w =>
    match w with
    | .saveTokenAddressHistory r => some r
    | _ => none)

/-- The `bridge_history` rows appended by a trace. -/
def bridgeRows (ws : List Write) : List BridgeHistory :=
  ws.filterMap (fun w =>
    match w with
    | .saveBridgeHistory r => some r
    | _ => none)

/-- The holder rows saved by a trace. -/
def holderRows (ws : List Write) : List TokenHolder :=
  ws.filterMap (fun w =>
    match w with
    | .saveHolder r => some r
    | _ => none)

/-- Characterization of every successful run of the bridge processor: the
chain id matched, and either the operation was not `send` (in which case
nothing was written), or all the send preconditions held and exactly the
debit, the transfer-history append and the bridge-history append were
performed, in that order. -/
theorem process_ok_cases (sign : String → String → List Nat) (protocol : Bridge)
    (db : DB) (tx : Transaction) (urn : ParsedURN) (sender : String)
    (ws : List Write)
    (h : Bridge.Process sign protocol db tx urn sender = Except.ok ws) :
    urn.chainID = protocol.chainID ∧
    ((urn.operation ≠ "send" ∧ ws = []) ∨
     (urn.operation = "send" ∧ ∃ tok rc bt f hOld,
        findToken db urn.chainID (toUpperStr (trimSpace (kvGet urn "tic"))) = some tok ∧
        findRemoteChain db urn.chainID (trimSpace (kvGet urn "rch")) = some rc ∧
        rc.remoteContract = trimSpace (kvGet urn "rco") ∧
        findBridgeToken db rc.id tok.id = some bt ∧ bt.enabled = true ∧
        parseGoFloat (trimSpace (kvGet urn "amt")) = some f ∧
        f.le0 = false ∧
        findHolder db urn.chainID tok.id sender = some hOld ∧
        ¬(hOld.amount < f.toUint64) ∧
        ws = [Write.saveHolder { hOld with amount := hOld.amount - f.toUint64 },
              Write.saveTokenAddressHistory
                (mkTokenAddressHistory tx urn.chainID tok.id sender f.roundUint64),
              Write.saveBridgeHistory
                (mkBridgeHistory tx urn.chainID tok.id sender f.roundUint64
                  (trimSpace (kvGet urn "rch")) (trimSpace (kvGet urn "rco"))
                  (trimSpace (kvGet urn "dst"))
                  (base64Encode (sign protocol.privKey
                    (attestationMsg urn.chainID tx.hash tok.ticker
                      (trimSpace (kvGet urn "amt"))
                      (trimSpace (kvGet urn "rch"))
                      (trimSpace (kvGet urn "rco"))
                      (trimSpace (kvGet urn "dst"))))))])) := by
  simp only [Bridge.Process] at h
  split at h
  · exact Except.noConfusion h
  next hchain =>
  refine ⟨not_ne_iff.mp hchain, ?_⟩
  split at h
  next hop =>
    right
    refine ⟨hop, ?_⟩
    split at h
    · exact Except.noConfusion h
    next tok htok =>
    split at h
    · exact Except.noConfusion h
    next rc hrc =>
    split at h
    · exact Except.noConfusion h
    next hco =>
    split at h
    · exact Except.noConfusion h
    next bt hbt =>
    split at h
    · exact Except.noConfusion h
    next hen =>
    split at h
    · exact Except.noConfusion h
    next f hf =>
    split at h
    · exact Except.noConfusion h
    next hf0 =>
    split at h
    · exact Except.noConfusion h
    next hOld hhold =>
    split at h
    · exact Except.noConfusion h
    next hlt =>
    injection h with h
    subst h
    exact ⟨tok, rc, bt, f, hOld, htok, hrc, not_ne_iff.mp hco, hbt,
      (by simpa using hen), hf, (by simpa using hf0), hhold, hlt, rfl⟩
  next hop =>
    left
    injection h with h
    exact ⟨hop, h.symm⟩

/-- An error result leaves the database untouched (the surrounding
transaction rolls back). -/
theorem runProcess_eq_of_error (sign : String → String → List Nat)
    (protocol : Bridge) (db : DB) (tx : Transaction) (urn : ParsedURN)
    (sender : String) (e : String)
    (h : Bridge.Process sign protocol db tx urn sender = Except.error e) :
    runProcess sign protocol db tx urn sender = db := by
  unfold runProcess
  rw [h]

/-- Every `bridge_history` row appended by a successful run is the row built
by the send branch: in particular its signature is the base64 of the Ed25519
signature over the attestation concatenation. -/
theorem mem_bridge_write_eq (sign : String → String → List Nat)
    (protocol : Bridge) (db : DB) (tx : Transaction) (urn : ParsedURN)
    (sender : String) (ws : List Write) (bh : BridgeHistory)
    (h : Bridge.Process sign protocol db tx urn sender = Except.ok ws)
    (hb : Write.saveBridgeHistory bh ∈ ws) :
    ∃ tok f hOld,
      findToken db urn.chainID (toUpperStr (trimSpace (kvGet urn "tic"))) = some tok ∧
      parseGoFloat (trimSpace (kvGet urn "amt")) = some f ∧
      findHolder db urn.chainID tok.id sender = some hOld ∧
      bh = mkBridgeHistory tx urn.chainID tok.id sender (GoFloat.roundUint64 f)
        (trimSpace (kvGet urn "rch")) (trimSpace (kvGet urn "rco"))
        (trimSpace (kvGet urn "dst"))
        (base64Encode (sign protocol.privKey
          (attestationMsg urn.chainID tx.hash tok.ticker
            (trimSpace (kvGet urn "amt")) (trimSpace (kvGet urn "rch"))
            (trimSpace (kvGet urn "rco")) (trimSpace (kvGet urn "dst"))))) := by
  rcases process_ok_cases sign protocol db tx urn sender ws h with
    ⟨-, ⟨-, rfl⟩ | ⟨-, tok, rc, bt, f, hOld, htok, -, -, -, -, hf, -, hhold, -, rfl⟩⟩
  · simp at hb
  · refine ⟨tok, f, hOld, htok, hf, hhold, ?_⟩
    simp only [List.mem_cons, List.not_mem_nil, or_false] at hb
    rcases hb with hb | hb | hb
    · exact Write.noConfusion hb
    · exact Write.noConfusion hb
    · injection hb

/-- On a finite positive integral value below 2^64 the Go conversion
`uint64(x)` is the integer itself. -/
theorem toUint64_intCase (q : ℚ) (h0 : 0 < q) (hden : q.den = 1)
    (hlt : q.num < 18446744073709551616) :
    (GoFloat.finite q).toUint64 = q.num.toNat := by
  have hn : 0 ≤ q.num := (Rat.num_pos.mpr h0).le
  simp only [GoFloat.toUint64, hden]
  rw [if_pos ⟨hn, by simpa using hlt⟩]
  simp

/-- On a finite positive integral value below 2^64,
`uint64(math.Round(x))` is the integer itself. -/
theorem roundUint64_intCase (q : ℚ) (h0 : 0 < q) (hden : q.den = 1)
    (hlt : q.num < 18446744073709551616) :
    (GoFloat.finite q).roundUint64 = q.num.toNat := by
  have hn : 0 ≤ q.num := (Rat.num_pos.mpr h0).le
  have hr : (2 * q.num.toNat + q.den) / (2 * q.den) = q.num.toNat := by
    rw [hden]
    omega
  simp only [GoFloat.roundUint64, hr]
  rw [if_pos ⟨hn, by omega⟩]

/-- Model validation: Go parses `2.9999999999999999` to the nearest binary64
value, which is exactly 3. -/
theorem parseGoFloat_nearest_check :
    parseGoFloat "2.9999999999999999" = some (GoFloat.finite (mkRat 3 1)) := by
  decide

/-- Model validation: 2^53 + 1 is not representable in binary64; Go parses
the literal to 2^53 (ties to even). -/
theorem parseGoFloat_large_integer_check :
    parseGoFloat "9007199254740993" =
      some (GoFloat.finite (mkRat 9007199254740992 1)) := by
  decide

/-- Model validation: exponent forms are accepted as by Go. -/
theorem parseGoFloat_exponent_check :
    parseGoFloat "1e5" = some (GoFloat.finite (mkRat 100000 1)) := by
  decide

/-- Model validation: digit-separating underscores are accepted as by Go. -/
theorem parseGoFloat_underscore_check :
    parseGoFloat "1_000" = some (GoFloat.finite (mkRat 1000 1)) := by
  decide

/-- Model validation: a literal that overflows binary64 makes ParseFloat
report ErrRange, i.e. the parse fails. -/
theorem parseGoFloat_overflow_check : parseGoFloat "1e309" = none := by
  decide

/-- Concrete deterministic stand-in for `ed25519.Sign` used by the witnesses:
signature bytes derived from key and message. -/
def cSign : String → String → List Nat :=
  fun k m => (k ++ m).data.map Char.toNat

/-- Concrete stand-in for Ed25519 verification matching `cSign` for the
configured keypair (private key "K", public key "P"). -/
def cVerify : String → String → List Nat → Bool :=
  fun _ m sig => sig == cSign "K" m

/-- Concrete bridge processor configuration for the witnesses. -/
def cBridge : Bridge := { chainID := "gaialocal-1", privKey := "K", pubKey := "P" }

/-- Concrete `token` row. -/
def cToken : Token := { id := 1, chainId := "gaialocal-1", ticker := "TICK" }

/-- Concrete `bridge_remote_chain` row. -/
def cRemote : BridgeRemoteChain :=
  { id := 1, chainId := "gaialocal-1", remoteChainId := "osmosis-1",
    remoteContract := "osmo1contract" }

/-- Concrete `bridge_token` row, enabled. -/
def cBT : BridgeToken := { id := 1, remoteChainId := 1, tokenId := 1, enabled := true }

/-- Concrete `token_holder` row: sender `addr1` holds 1000 TICK. -/
def cHolder : TokenHolder :=
  { id := 1, chainId := "gaialocal-1", tokenId := 1, address := "addr1",
    amount := 1000 }

/-- Concrete database for the witnesses. -/
def cDB : DB :=
  { tokens := [cToken], holders := [cHolder], remoteChains := [cRemote],
    bridgeTokens := [cBT], tokenAddressHistory := [], bridgeHistory := [] }

/-- Concrete transaction. -/
def cTx : Transaction := { id := 7, height := 100, hash := "HASH", dateCreated := 3 }

/-- Concrete parsed send URN with amount literal `250`. -/
def cURN : ParsedURN :=
  { chainID := "gaialocal-1", operation := "send",
    keyValuePairs := [("tic", "TICK"), ("amt", "250"), ("rch", "osmosis-1"),
      ("rco", "osmo1contract"), ("dst", "osmo1x")] }

/-- The write trace of the concrete send. -/
def cWS : List Write :=
  (Bridge.Process cSign cBridge cDB cTx cURN "addr1").toOption.getD []

/-- The `bridge_history` row of the concrete send. -/
def cBH : BridgeHistory := (bridgeRows cWS).getD 0 default

/-- C1: for every successful bridge send, the signature stored in the
`bridge_history` row is the base64 encoding of the Ed25519 signature, made
with the configured private key, over the byte concatenation of `chain_id`,
`tx.hash`, ticker, amount literal, `rch`, `rco` and `dst`, in that order
with no separators between them. -/
theorem C1_bridge_signature_base64_concat (sign : String → String → List Nat)
    (protocol : Bridge) (db : DB) (tx : Transaction) (urn : ParsedURN)
    (sender : String) (ws : List Write) (bh : BridgeHistory)
    (h : Bridge.Process sign protocol db tx urn sender = Except.ok ws)
    (hb : Write.saveBridgeHistory bh ∈ ws) :
    ∃ tok, findToken db urn.chainID (toUpperStr (trimSpace (kvGet urn "tic"))) = some tok ∧
      bh.signature = base64Encode (sign protocol.privKey
        (urn.chainID ++ tx.hash ++ tok.ticker ++ trimSpace (kvGet urn "amt") ++
          trimSpace (kvGet urn "rch") ++ trimSpace (kvGet urn "rco") ++
          trimSpace (kvGet urn "dst"))) := by
  obtain ⟨tok, f, hOld, htok, hf, hhold, rfl⟩ :=
    mem_bridge_write_eq sign protocol db tx urn sender ws bh h hb
  exact ⟨tok, htok, rfl⟩

/-- Witness for C1: evaluated on the concrete send of 250 TICK. -/
theorem C1_witness :
    ∃ tok, findToken cDB cURN.chainID (toUpperStr (trimSpace (kvGet cURN "tic"))) = some tok ∧
      cBH.signature = base64Encode (cSign cBridge.privKey
        (cURN.chainID ++ cTx.hash ++ tok.ticker ++ trimSpace (kvGet cURN "amt") ++
          trimSpace (kvGet cURN "rch") ++ trimSpace (kvGet cURN "rco") ++
          trimSpace (kvGet cURN "dst"))) :=
  C1_bridge_signature_base64_concat cSign cBridge cDB cTx cURN "addr1" cWS cBH
    rfl (by decide)

/-- C2: for every successful bridge send the effects happen in this order
within the (atomically applied) transaction: first the holder row of the
sender is debited, then the `token_address_history` row is appended, and
finally the `bridge_history` row — the only write carrying the signature —
is appended; in particular the signature is never written before the balance
debit. -/
theorem C2_bridge_send_effect_order (sign : String → String → List Nat)
    (protocol : Bridge) (db : DB) (tx : Transaction) (urn : ParsedURN)
    (sender : String) (ws : List Write)
    (hop : urn.operation = "send")
    (h : Bridge.Process sign protocol db tx urn sender = Except.ok ws) :
    ∃ tok f hOld tah bh,
      findToken db urn.chainID (toUpperStr (trimSpace (kvGet urn "tic"))) = some tok ∧
      findHolder db urn.chainID tok.id sender = some hOld ∧
      parseGoFloat (trimSpace (kvGet urn "amt")) = some f ∧
      ws = [Write.saveHolder { hOld with amount := hOld.amount - GoFloat.toUint64 f },
            Write.saveTokenAddressHistory tah,
            Write.saveBridgeHistory bh] ∧
      bridgeRows ws = [bh] := by
  rcases process_ok_cases sign protocol db tx urn sender ws h with
    ⟨-, ⟨hop2, -⟩ | ⟨-, tok, rc, bt, f, hOld, htok, -, -, -, -, hf, -, hhold, -, rfl⟩⟩
  · exact absurd hop hop2
  · exact ⟨tok, f, hOld, _, _, htok, hhold, hf, rfl, rfl⟩

/-- Witness for C2: evaluated on the concrete send of 250 TICK. -/
theorem C2_witness :
    ∃ tok f hOld tah bh,
      findToken cDB cURN.chainID (toUpperStr (trimSpace (kvGet cURN "tic"))) = some tok ∧
      findHolder cDB cURN.chainID tok.id "addr1" = some hOld ∧
      parseGoFloat (trimSpace (kvGet cURN "amt")) = some f ∧
      cWS = [Write.saveHolder { hOld with amount := hOld.amount - GoFloat.toUint64 f },
             Write.saveTokenAddressHistory tah,
             Write.saveBridgeHistory bh] ∧
      bridgeRows cWS = [bh] :=
  C2_bridge_send_effect_order cSign cBridge cDB cTx cURN "addr1" cWS rfl rfl

/-- C3: for every bridge send, if the token does not exist, or no remote
chain row exists for (local chain, rch), or the remote contract of that row
differs from rco, or no bridge-token row exists for it, or that row is not
enabled, then `Process` returns an error and the database is unchanged. -/
theorem C3_bridge_precondition_errors (sign : String → String → List Nat)
    (protocol : Bridge) (db : DB) (tx : Transaction) (urn : ParsedURN)
    (sender : String)
    (hop : urn.operation = "send")
    (hfail :
      findToken db urn.chainID (toUpperStr (trimSpace (kvGet urn "tic"))) = none ∨
      ∃ tok, findToken db urn.chainID (toUpperStr (trimSpace (kvGet urn "tic"))) = some tok ∧
        (findRemoteChain db urn.chainID (trimSpace (kvGet urn "rch")) = none ∨
         ∃ rc, findRemoteChain db urn.chainID (trimSpace (kvGet urn "rch")) = some rc ∧
           (rc.remoteContract ≠ trimSpace (kvGet urn "rco") ∨
            findBridgeToken db rc.id tok.id = none ∨
            ∃ bt, findBridgeToken db rc.id tok.id = some bt ∧ bt.enabled = false))) :
    (∃ e, Bridge.Process sign protocol db tx urn sender = Except.error e) ∧
    runProcess sign protocol db tx urn sender = db := by
  cases hP : Bridge.Process sign protocol db tx urn sender with
  | error e => exact ⟨⟨e, rfl⟩, runProcess_eq_of_error _ _ _ _ _ _ _ hP⟩
  | ok ws =>
    exfalso
    rcases process_ok_cases sign protocol db tx urn sender ws hP with
      ⟨-, ⟨hop2, -⟩ | ⟨-, tok, rc, bt, f, hOld, htok, hrc, hco, hbt, hen, -, -, -, -, -⟩⟩
    · exact hop2 hop
    · rcases hfail with hf | ⟨tok2, htok2, hf⟩
      · rw [htok] at hf
        exact Option.noConfusion hf
      · rw [htok] at htok2
        injection htok2 with htok2
        subst htok2
        rcases hf with hf | ⟨rc2, hrc2, hf⟩
        · rw [hrc] at hf
          exact Option.noConfusion hf
        · rw [hrc] at hrc2
          injection hrc2 with hrc2
          subst hrc2
          rcases hf with hf | hf | ⟨bt2, hbt2, hf⟩
          · exact hf hco
          · rw [hbt] at hf
            exact Option.noConfusion hf
          · rw [hbt] at hbt2
            injection hbt2 with hbt2
            subst hbt2
            rw [hen] at hf
            exact Bool.noConfusion hf

/-- Concrete empty database: the TICK token does not exist. -/
def cDBempty : DB :=
  { tokens := [], holders := [], remoteChains := [], bridgeTokens := [],
    tokenAddressHistory := [], bridgeHistory := [] }

/-- Witness for C3: on an empty database the token lookup fails and the send
errors without touching the database. -/
theorem C3_witness :
    (∃ e, Bridge.Process cSign cBridge cDBempty cTx cURN "addr1" = Except.error e) ∧
    runProcess cSign cBridge cDBempty cTx cURN "addr1" = cDBempty :=
  C3_bridge_precondition_errors cSign cBridge cDBempty cTx cURN "addr1" rfl
    (Or.inl rfl)

/-- C6: every successful bridge send appends exactly one
`token_address_history` row, and its action and receiver fields are both the
literal string "bridge". -/
theorem C6_single_transfer_history_row (sign : String → String → List Nat)
    (protocol : Bridge) (db : DB) (tx : Transaction) (urn : ParsedURN)
    (sender : String) (ws : List Write)
    (hop : urn.operation = "send")
    (h : Bridge.Process sign protocol db tx urn sender = Except.ok ws) :
    ∃ r, tahRows ws = [r] ∧ r.action = "bridge" ∧ r.receiver = "bridge" := by
  rcases process_ok_cases sign protocol db tx urn sender ws h with
    ⟨-, ⟨hop2, -⟩ | ⟨-, tok, rc, bt, f, hOld, -, -, -, -, -, -, -, -, -, rfl⟩⟩
  · exact absurd hop hop2
  · exact ⟨mkTokenAddressHistory tx urn.chainID tok.id sender f.roundUint64,
      rfl, rfl, rfl⟩

/-- Witness for C6: evaluated on the concrete send of 250 TICK. -/
theorem C6_witness :
    ∃ r, tahRows cWS = [r] ∧ r.action = "bridge" ∧ r.receiver = "bridge" :=
  C6_single_transfer_history_row cSign cBridge cDB cTx cURN "addr1" cWS rfl rfl

/-- C7: every URN whose parsed chain id differs from the configured chain id
makes `Process` fail with the chain-mismatch error and perform no database
writes. -/
theorem C7_chain_mismatch_error (sign : String → String → List Nat)
    (protocol : Bridge) (db : DB) (tx : Transaction) (urn : ParsedURN)
    (sender : String)
    (hne : urn.chainID ≠ protocol.chainID) :
    Bridge.Process sign protocol db tx urn sender =
      Except.error "chain ID in protocol string does not match transaction chain ID" ∧
    runProcess sign protocol db tx urn sender = db := by
  have h : Bridge.Process sign protocol db tx urn sender =
      Except.error "chain ID in protocol string does not match transaction chain ID" := by
    simp only [Bridge.Process]
    rw [if_pos hne]
  exact ⟨h, runProcess_eq_of_error _ _ _ _ _ _ _ h⟩

/-- Concrete URN whose chain id differs from the configured one. -/
def cURNbadchain : ParsedURN :=
  { chainID := "other-1", operation := "send",
    keyValuePairs := [("tic", "TICK"), ("amt", "250"), ("rch", "osmosis-1"),
      ("rco", "osmo1contract"), ("dst", "osmo1x")] }

/-- Witness for C7: a send whose URN names chain `other-1` against a
processor configured for `gaialocal-1`. -/
theorem C7_witness :
    Bridge.Process cSign cBridge cDB cTx cURNbadchain "addr1" =
      Except.error "chain ID in protocol string does not match transaction chain ID" ∧
    runProcess cSign cBridge cDB cTx cURNbadchain "addr1" = cDB :=
  C7_chain_mismatch_error cSign cBridge cDB cTx cURNbadchain "addr1" (by decide)

/-- Concrete URN with the unknown operation `mint` on the matching chain. -/
def cURNmint : ParsedURN :=
  { chainID := "gaialocal-1", operation := "mint",
    keyValuePairs := [("tic", "TICK"), ("amt", "10")] }

/-- C9 counterexample: a bridge URN with the unknown operation `mint` makes
`Process` return success (`nil` in Go) — no error is produced, so no parse
error can be recorded in `transaction.status_message`, contrary to the
claim.  (The Go `switch` has no default case, so unknown operations fall
through silently.) -/
theorem C9_counterexample :
    Bridge.Process cSign cBridge cDB cTx cURNmint "addr1" = Except.ok [] := rfl

/-- C9 (amended): for every bridge URN whose operation is not `send` and
whose chain id matches, `Process` succeeds with no protocol-level effects —
no error is returned, so nothing is recorded in
`transaction.status_message`. -/
theorem C9_unknown_operation_is_noop (sign : String → String → List Nat)
    (protocol : Bridge) (db : DB) (tx : Transaction) (urn : ParsedURN)
    (sender : String)
    (hchain : urn.chainID = protocol.chainID)
    (hop : urn.operation ≠ "send") :
    Bridge.Process sign protocol db tx urn sender = Except.ok [] ∧
    runProcess sign protocol db tx urn sender = db := by
  have h : Bridge.Process sign protocol db tx urn sender = Except.ok [] := by
    simp only [Bridge.Process]
    rw [if_neg (not_ne_iff.mpr hchain), if_neg hop]
  refine ⟨h, ?_⟩
  unfold runProcess
  rw [h]
  rfl

/-- Witness for C9: the `mint` operation on the matching chain is a no-op. -/
theorem C9_witness :
    Bridge.Process cSign cBridge cDB cTx cURNmint "addr1" = Except.ok [] ∧
    runProcess cSign cBridge cDB cTx cURNmint "addr1" = cDB :=
  C9_unknown_operation_is_noop cSign cBridge cDB cTx cURNmint "addr1" rfl
    (by decide)

/-- C10: for every bridge send whose amount literal does not parse — a
malformed string, or a literal whose value overflows binary64 so that
`strconv.ParseFloat` reports `ErrRange` — or parses to a value for which the
Go comparison `amount <= 0` holds, `Process` returns an error and writes
nothing; in particular zero and negative amounts are always rejected. -/
theorem C10_bad_amount_rejected (sign : String → String → List Nat)
    (protocol : Bridge) (db : DB) (tx : Transaction) (urn : ParsedURN)
    (sender : String)
    (hop : urn.operation = "send")
    (hbad : parseGoFloat (trimSpace (kvGet urn "amt")) = none ∨
      ∃ f, parseGoFloat (trimSpace (kvGet urn "amt")) = some f ∧ f.le0 = true) :
    (∃ e, Bridge.Process sign protocol db tx urn sender = Except.error e) ∧
    runProcess sign protocol db tx urn sender = db := by
  cases hP : Bridge.Process sign protocol db tx urn sender with
  | error e => exact ⟨⟨e, rfl⟩, runProcess_eq_of_error _ _ _ _ _ _ _ hP⟩
  | ok ws =>
    exfalso
    rcases process_ok_cases sign protocol db tx urn sender ws hP with
      ⟨-, ⟨hop2, -⟩ | ⟨-, tok, rc, bt, f, hOld, -, -, -, -, -, hf, hf0, -, -, -⟩⟩
    · exact hop2 hop
    · rcases hbad with hb | ⟨f2, hf2, hf20⟩
      · rw [hf] at hb
        exact Option.noConfusion hb
      · rw [hf] at hf2
        injection hf2 with hf2
        subst hf2
        rw [hf0] at hf20
        exact Bool.noConfusion hf20

/-- Concrete URN with amount literal `0`. -/
def cURNzero : ParsedURN :=
  { chainID := "gaialocal-1", operation := "send",
    keyValuePairs := [("tic", "TICK"), ("amt", "0"), ("rch", "osmosis-1"),
      ("rco", "osmo1contract"), ("dst", "osmo1x")] }

/-- Witness for C10: the amount literal `0` is rejected. -/
theorem C10_witness :
    (∃ e, Bridge.Process cSign cBridge cDB cTx cURNzero "addr1" = Except.error e) ∧
    runProcess cSign cBridge cDB cTx cURNzero "addr1" = cDB :=
  C10_bad_amount_rejected cSign cBridge cDB cTx cURNzero "addr1" rfl
    (Or.inr ⟨GoFloat.finite 0, by decide, by decide⟩)

/-- Concrete URN with the fractional amount literal `10.5`. -/
def cURNhalf : ParsedURN :=
  { chainID := "gaialocal-1", operation := "send",
    keyValuePairs := [("tic", "TICK"), ("amt", "10.5"), ("rch", "osmosis-1"),
      ("rco", "osmo1contract"), ("dst", "osmo1x")] }

/-- Concrete holder row with amount 10. -/
def cHolder10 : TokenHolder :=
  { id := 1, chainId := "gaialocal-1", tokenId := 1, address := "addr1",
    amount := 10 }

/-- Concrete database whose only holder has 10 TICK. -/
def cDB10 : DB :=
  { tokens := [cToken], holders := [cHolder10], remoteChains := [cRemote],
    bridgeTokens := [cBT], tokenAddressHistory := [], bridgeHistory := [] }

/-- The write trace of the send of `10.5` against a balance of 10. -/
def cWS4 : List Write :=
  (Bridge.Process cSign cBridge cDB10 cTx cURNhalf "addr1").toOption.getD []

/-- C4 counterexample: the sender holds 10 and the amount literal is 10.5
(parsed by ParseFloat to the exactly representable binary64 value 21/2), so
the holder amount is less than amt, yet `Process` succeeds — the code
compares the balance against the Go truncation `uint64(10.5) = 10`, not
against the parsed amount. -/
theorem C4_counterexample :
    parseGoFloat (trimSpace (kvGet cURNhalf "amt")) =
      some (GoFloat.finite (mkRat 21 2)) ∧
    findHolder cDB10 cURNhalf.chainID cToken.id "addr1" = some cHolder10 ∧
    cHolder10.amount = 10 ∧ ((10 : ℚ) < mkRat 21 2) ∧
    Bridge.Process cSign cBridge cDB10 cTx cURNhalf "addr1" = Except.ok cWS4 :=
  ⟨by decide, rfl, rfl, by decide, rfl⟩

/-- C4 (amended): for every bridge send, if the sender has no holder row for
the token, or the holder amount of the sender is less than `uint64(amount)`
— the truncation toward zero of the binary64 value that ParseFloat produced
for the amt literal — `Process` returns an error and no balance changes; and
every committed debit subtracts exactly that truncation, which the guard
keeps at most the old balance, so no committed operation drives a holder
balance below zero. -/
theorem C4_insufficient_balance (sign : String → String → List Nat)
    (protocol : Bridge) (db : DB) (tx : Transaction) (urn : ParsedURN)
    (sender : String)
    (hop : urn.operation = "send") :
    (∀ tok f,
      findToken db urn.chainID (toUpperStr (trimSpace (kvGet urn "tic"))) = some tok →
      parseGoFloat (trimSpace (kvGet urn "amt")) = some f →
      (findHolder db urn.chainID tok.id sender = none ∨
       ∃ hold, findHolder db urn.chainID tok.id sender = some hold ∧
         hold.amount < GoFloat.toUint64 f) →
      (∃ e, Bridge.Process sign protocol db tx urn sender = Except.error e) ∧
      runProcess sign protocol db tx urn sender = db) ∧
    (∀ ws h2, Bridge.Process sign protocol db tx urn sender = Except.ok ws →
      Write.saveHolder h2 ∈ ws →
      ∃ tok f hOld,
        findToken db urn.chainID (toUpperStr (trimSpace (kvGet urn "tic"))) = some tok ∧
        parseGoFloat (trimSpace (kvGet urn "amt")) = some f ∧
        findHolder db urn.chainID tok.id sender = some hOld ∧
        GoFloat.toUint64 f ≤ hOld.amount ∧
        h2.amount + GoFloat.toUint64 f = hOld.amount) := by
  constructor
  · intro tok f htok hf hins
    cases hP : Bridge.Process sign protocol db tx urn sender with
    | error e => exact ⟨⟨e, rfl⟩, runProcess_eq_of_error _ _ _ _ _ _ _ hP⟩
    | ok ws =>
      exfalso
      rcases process_ok_cases sign protocol db tx urn sender ws hP with
        ⟨-, ⟨hop2, -⟩ | ⟨-, tok2, rc, bt, f2, hOld, htok2, -, -, -, -, hf2, -, hhold, hlt, -⟩⟩
      · exact hop2 hop
      · rw [htok] at htok2
        injection htok2 with htok2
        subst htok2
        rw [hf] at hf2
        injection hf2 with hf2
        subst hf2
        rcases hins with hi | ⟨hold, hh, hi⟩
        · rw [hhold] at hi
          exact Option.noConfusion hi
        · rw [hhold] at hh
          injection hh with hh
          subst hh
          exact hlt hi
  · intro ws h2 hP hmem
    rcases process_ok_cases sign protocol db tx urn sender ws hP with
      ⟨-, ⟨hop2, -⟩ | ⟨-, tok, rc, bt, f, hOld, htok, -, -, -, -, hf, -, hhold, hlt, rfl⟩⟩
    · exact absurd hop hop2
    · refine ⟨tok, f, hOld, htok, hf, hhold, by omega, ?_⟩
      simp only [List.mem_cons, List.not_mem_nil, or_false] at hmem
      rcases hmem with hm | hm | hm
      · injection hm with hm
        subst hm
        simp only []
        omega
      · exact Write.noConfusion hm
      · exact Write.noConfusion hm

/-- Concrete holder row with amount 5: not enough for a send of 250. -/
def cHolder5 : TokenHolder :=
  { id := 1, chainId := "gaialocal-1", tokenId := 1, address := "addr1",
    amount := 5 }

/-- Concrete database whose only holder has 5 TICK. -/
def cDB5 : DB :=
  { tokens := [cToken], holders := [cHolder5], remoteChains := [cRemote],
    bridgeTokens := [cBT], tokenAddressHistory := [], bridgeHistory := [] }

/-- Witness for C4 (amended): a sender holding 5 cannot send 250; the run
errors and the database is unchanged. -/
theorem C4_witness :
    (∃ e, Bridge.Process cSign cBridge cDB5 cTx cURN "addr1" = Except.error e) ∧
    runProcess cSign cBridge cDB5 cTx cURN "addr1" = cDB5 :=
  (C4_insufficient_balance cSign cBridge cDB5 cTx cURN "addr1" rfl).1
    cToken (GoFloat.finite (mkRat 250 1)) rfl (by decide)
    (Or.inr ⟨cHolder5, rfl, by decide⟩)

/-- Concrete URN with the fractional amount literal `1.5`. -/
def cURN15 : ParsedURN :=
  { chainID := "gaialocal-1", operation := "send",
    keyValuePairs := [("tic", "TICK"), ("amt", "1.5"), ("rch", "osmosis-1"),
      ("rco", "osmo1contract"), ("dst", "osmo1x")] }

/-- The write trace of the send of `1.5` against a balance of 1000. -/
def cWS5 : List Write :=
  (Bridge.Process cSign cBridge cDB cTx cURN15 "addr1").toOption.getD []

/-- C5 counterexample: for the amount literal `1.5` (exactly representable
in binary64) the balance of the sender decreases by 1 (from 1000 to 999,
the truncation), while both history rows record 2 (the rounding) — the
recorded amount differs from the debited amount, and the balance does not
decrease by the literal. -/
theorem C5_counterexample :
    Bridge.Process cSign cBridge cDB cTx cURN15 "addr1" = Except.ok cWS5 ∧
    parseGoFloat (trimSpace (kvGet cURN15 "amt")) =
      some (GoFloat.finite (mkRat 3 2)) ∧
    cHolder.amount = 1000 ∧
    (holderRows cWS5).map TokenHolder.amount = [999] ∧
    (tahRows cWS5).map TokenAddressHistory.amount = [2] ∧
    (bridgeRows cWS5).map BridgeHistory.amount = [2] ∧
    (1000 - 999 : Nat) ≠ 2 :=
  ⟨rfl, by decide, rfl, rfl, rfl, rfl, by decide⟩

/-- C5 (amended): for every successful bridge send whose amount literal
parses — as the binary64 value ParseFloat produces — to an integer n below
2^64, the holder balance of the sender decreases by exactly n, and the
amounts recorded in the `token_address_history` row and in the
`bridge_history` row both equal that same debited amount n. -/
theorem C5_integral_amount_consistent (sign : String → String → List Nat)
    (protocol : Bridge) (db : DB) (tx : Transaction) (urn : ParsedURN)
    (sender : String) (ws : List Write) (q : ℚ)
    (hop : urn.operation = "send")
    (hq : parseGoFloat (trimSpace (kvGet urn "amt")) = some (GoFloat.finite q))
    (hden : q.den = 1)
    (hlt64 : q.num < 18446744073709551616)
    (h : Bridge.Process sign protocol db tx urn sender = Except.ok ws) :
    ∃ tok hOld tah bh,
      findToken db urn.chainID (toUpperStr (trimSpace (kvGet urn "tic"))) = some tok ∧
      findHolder db urn.chainID tok.id sender = some hOld ∧
      ws = [Write.saveHolder { hOld with amount := hOld.amount - q.num.toNat },
            Write.saveTokenAddressHistory tah,
            Write.saveBridgeHistory bh] ∧
      q.num.toNat ≤ hOld.amount ∧
      tah.amount = q.num.toNat ∧ bh.amount = q.num.toNat := by
  rcases process_ok_cases sign protocol db tx urn sender ws h with
    ⟨-, ⟨hop2, -⟩ | ⟨-, tok, rc, bt, f, hOld, htok, -, -, -, -, hf2, hf0, hhold, hlt, rfl⟩⟩
  · exact absurd hop hop2
  · rw [hq] at hf2
    injection hf2 with hf2
    subst hf2
    have hqpos : 0 < q := by
      have h' : ¬(q ≤ 0) := by
        simpa [GoFloat.le0, decide_eq_false_iff_not] using hf0
      exact lt_of_not_le h'
    have ht := toUint64_intCase q hqpos hden hlt64
    have hr := roundUint64_intCase q hqpos hden hlt64
    rw [ht] at hlt
    refine ⟨tok, hOld,
      mkTokenAddressHistory tx urn.chainID tok.id sender
        ((GoFloat.finite q).roundUint64),
      mkBridgeHistory tx urn.chainID tok.id sender
        ((GoFloat.finite q).roundUint64)
        (trimSpace (kvGet urn "rch")) (trimSpace (kvGet urn "rco"))
        (trimSpace (kvGet urn "dst"))
        (base64Encode (sign protocol.privKey
          (attestationMsg urn.chainID tx.hash tok.ticker
            (trimSpace (kvGet urn "amt")) (trimSpace (kvGet urn "rch"))
            (trimSpace (kvGet urn "rco")) (trimSpace (kvGet urn "dst"))))),
      htok, hhold, ?_, ?_, ?_, ?_⟩
    · rw [← ht]
    · omega
    · simpa [mkTokenAddressHistory] using hr
    · simpa [mkBridgeHistory] using hr

/-- Witness for C5 (amended): evaluated on the concrete send of 250 TICK. -/
theorem C5_witness :
    ∃ tok hOld tah bh,
      findToken cDB cURN.chainID (toUpperStr (trimSpace (kvGet cURN "tic"))) = some tok ∧
      findHolder cDB cURN.chainID tok.id "addr1" = some hOld ∧
      cWS = [Write.saveHolder
              { hOld with amount := hOld.amount - (mkRat 250 1).num.toNat },
            Write.saveTokenAddressHistory tah,
            Write.saveBridgeHistory bh] ∧
      (mkRat 250 1).num.toNat ≤ hOld.amount ∧
      tah.amount = (mkRat 250 1).num.toNat ∧
      bh.amount = (mkRat 250 1).num.toNat :=
  C5_integral_amount_consistent cSign cBridge cDB cTx cURN "addr1" cWS
    (mkRat 250 1) rfl (by decide) (by decide) (by decide) rfl

/-- C8: for a fixed tuple (chain id, tx hash, ticker, amount, rch, rco,
dst), two runs of the bridge send — possibly by different senders at
different heights — store the same attestation signature, and that
signature is the base64 of a signature that verifies against the configured
public key (verification correctness of the keypair taken as a
hypothesis on the Ed25519 primitives). -/
theorem C8_attestation_determinism (sign : String → String → List Nat)
    (verify : String → String → List Nat → Bool) (protocol : Bridge)
    (db : DB) (tx1 tx2 : Transaction) (urn : ParsedURN) (s1 s2 : String)
    (ws1 ws2 : List Write) (b1 b2 : BridgeHistory)
    (hver : ∀ m, verify protocol.pubKey m (sign protocol.privKey m) = true)
    (hhash : tx1.hash = tx2.hash)
    (h1 : Bridge.Process sign protocol db tx1 urn s1 = Except.ok ws1)
    (hb1 : Write.saveBridgeHistory b1 ∈ ws1)
    (h2 : Bridge.Process sign protocol db tx2 urn s2 = Except.ok ws2)
    (hb2 : Write.saveBridgeHistory b2 ∈ ws2) :
    b1.signature = b2.signature ∧
    ∃ m, b1.signature = base64Encode (sign protocol.privKey m) ∧
      verify protocol.pubKey m (sign protocol.privKey m) = true := by
  obtain ⟨tok1, f1, hOld1, htok1, hf1, -, rfl⟩ :=
    mem_bridge_write_eq sign protocol db tx1 urn s1 ws1 b1 h1 hb1
  obtain ⟨tok2, f2, hOld2, htok2, hf2, -, rfl⟩ :=
    mem_bridge_write_eq sign protocol db tx2 urn s2 ws2 b2 h2 hb2
  rw [htok1] at htok2
  injection htok2 with htok2
  subst htok2
  constructor
  · simp [mkBridgeHistory, attestationMsg, hhash]
  · exact ⟨attestationMsg urn.chainID tx1.hash tok1.ticker
      (trimSpace (kvGet urn "amt")) (trimSpace (kvGet urn "rch"))
      (trimSpace (kvGet urn "rco")) (trimSpace (kvGet urn "dst")),
      rfl, hver _⟩

/-- Second concrete transaction with the same hash at a different height. -/
def cTx2 : Transaction := { id := 8, height := 101, hash := "HASH", dateCreated := 9 }

/-- Second concrete holder: `addr2` holds 500 TICK. -/
def cHolder2 : TokenHolder :=
  { id := 2, chainId := "gaialocal-1", tokenId := 1, address := "addr2",
    amount := 500 }

/-- Concrete database with two holders, for the two runs of C8. -/
def cDB8 : DB :=
  { tokens := [cToken], holders := [cHolder, cHolder2],
    remoteChains := [cRemote], bridgeTokens := [cBT],
    tokenAddressHistory := [], bridgeHistory := [] }

/-- Trace of the first C8 run (sender `addr1`). -/
def cWS8a : List Write :=
  (Bridge.Process cSign cBridge cDB8 cTx cURN "addr1").toOption.getD []

/-- Trace of the second C8 run (sender `addr2`, different height). -/
def cWS8b : List Write :=
  (Bridge.Process cSign cBridge cDB8 cTx2 cURN "addr2").toOption.getD []

/-- Bridge-history row of the first C8 run. -/
def cBH8a : BridgeHistory := (bridgeRows cWS8a).getD 0 default

/-- Bridge-history row of the second C8 run. -/
def cBH8b : BridgeHistory := (bridgeRows cWS8b).getD 0 default

/-- Witness for C8: two concrete runs with different senders and heights
but the same tuple store the same verifying signature. -/
theorem C8_witness :
    cBH8a.signature = cBH8b.signature ∧
    ∃ m, cBH8a.signature = base64Encode (cSign cBridge.privKey m) ∧
      cVerify cBridge.pubKey m (cSign cBridge.privKey m) = true :=
  C8_attestation_determinism cSign cVerify cBridge cDB8 cTx cTx2 cURN
    "addr1" "addr2" cWS8a cWS8b cBH8a cBH8b
    (fun _ => beq_self_eq_true _) rfl rfl (by decide) rfl (by decide)

end AsteroidBridge
